import Mathlib

/-!
Verification development for the `estes` Go package (pickup-request client
for the Estes Freight XML/SOAP API).  The definitions below are a shallow
embedding of `src/estes.go`: the data model, the XML marshaling of the
pickup-request envelope, the reply classification performed by
`RequestPickup`, and the package-level configuration (`SetProductionMode`,
`SetTimeout`).  Go `string` is `String`, Go `uint` is `Nat`, Go
`time.Duration` (int64 nanoseconds) is `Int`, and a finite Go `float64` is
modelled by its exact decimal value (see `GoFloat`).  XML documents are
modelled as trees; a reply body is either a well-formed document or raw
non-XML bytes.
-/

namespace Estes

/-- `estesTestURL` constant from estes.go line 32. -/
def estesTestURL : String := "https://apitest.estes-express.com/tools/pickup/request/v1.0"

/-- `estesProductionURL` constant from estes.go line 33. -/
def estesProductionURL : String := "https://api.estes-express.com/tools/pickup/request/v1.0"

/-- `soapenvAttr` constant from estes.go line 49. -/
def soapenvAttr : String := "http://schemas.xmlsoap.org/soap/envelope/"

/-- `estAttr` constant from estes.go line 50. -/
def estAttr : String := "http://estespickup.base.ws.provider.soapws.pickupRequest"

/-- Go `time.Second`: 10^9 nanoseconds, as an `Int` (time.Duration is int64). -/
def second : Int := 1000000000

/-- Two's-complement wrap of an integer into the int64 range, as Go's int64
arithmetic behaves on overflow. -/
def wrap64 (x : Int) : Int := (x + 2 ^ 63) % 2 ^ 64 - 2 ^ 63

/-- Default of the package-level `timeout` variable: `time.Duration(10 * time.Second)`. -/
def defaultTimeout : Int := 10 * second

/-- `SetTimeout` (estes.go lines 151-154): `timeout = time.Duration(seconds * time.Second)`.
The multiplication is int64 arithmetic, so it wraps on overflow.  The returned
value is the new contents of the package-level `timeout` variable. -/
def SetTimeout (seconds : Int) : Int := wrap64 (seconds * second)

/-- `SetProductionMode` (estes.go lines 142-147) as a transition on the package-level
`estesURL` variable: the argument `estesURL` is the current value of the variable and
the result is its value after the call. -/
def SetProductionMode (yes : Bool) (estesURL : String) : String :=
  if yes then estesProductionURL else estesURL

/-- A finite Go `float64`, modelled by its exact decimal value
`(if neg then -1 else 1) * m / 10 ^ s`.  Every finite binary float has a
terminating decimal expansion, and Go's shortest round-trip formatting
(`strconv.FormatFloat(_, 'g', -1, 64)` / `strconv.ParseFloat`) writes and
reads such a decimal exactly, so the decimal pair is a faithful value-level
model of the marshaled field. -/
structure GoFloat where
  m : Int
  s : Nat
deriving DecidableEq, Repr

/-- `Address` struct (estes.go lines 90-100). -/
structure Address where
  AddressLine1 : String
  City : String
  StateProvince : String
  PostalCode : String
  Country : String
  AddressLine2 : String
deriving DecidableEq, Repr

/-- `Name` struct (estes.go lines 110-114). -/
structure Name where
  First : String
  Middle : String
  Last : String
deriving DecidableEq, Repr

/-- `Phone` struct (estes.go lines 117-120). -/
structure Phone where
  AreaCode : String
  Number : String
deriving DecidableEq, Repr

/-- `Contact` struct (estes.go lines 103-107). -/
structure Contact where
  Name : Name
  Email : String
  Phone : Phone
deriving DecidableEq, Repr

/-- `Shipper` struct (estes.go lines 80-87). -/
structure Shipper where
  ShipperName : String
  ShipperAddress : Address
  ShipperContact : Contact
deriving DecidableEq, Repr

/-- `PickupRequestInput` struct (estes.go lines 64-77). -/
structure PickupRequestInput where
  Shipper : Shipper
  PickupDate : String
  PickupStartTime : String
  PickupEndTime : String
  TotalPieces : Nat
  TotalWeight : GoFloat
  TotalHandlingUnits : Nat
  RequestNumber : String
  WhoRequested : String
deriving DecidableEq, Repr

/-- `PickupRequest` struct (estes.go lines 54-61), the body of the XML request.
The `XMLName` tag fixes the root element `soapenv:Envelope`; the two attribute
fields carry the namespace declarations. -/
structure PickupRequest where
  SoapenvAttr : String
  EstAttr : String
  PickupRequestInput : PickupRequestInput
deriving DecidableEq, Repr

/-- `CreatePickupRequestResponse` struct (estes.go lines 129-131). -/
structure CreatePickupRequestResponse where
  RequestNumber : String
deriving DecidableEq, Repr

/-- `SuccessfulPickupRequest` struct (estes.go lines 123-126).  `XMLName` models the
local name recorded in the Go `xml.Name` field by a successful unmarshal (the zero
value is the empty string). -/
structure SuccessfulPickupRequest where
  XMLName : String
  Response : CreatePickupRequestResponse
deriving DecidableEq, Repr

/-- `ErrorPickupRequest` struct (estes.go lines 134-139). -/
structure ErrorPickupRequest where
  XMLName : String
  Code : String
  Description : String
  BadData : String
deriving DecidableEq, Repr

/-- The zero value of `SuccessfulPickupRequest` (Go named return starts zeroed). -/
def zeroSuccess : SuccessfulPickupRequest := { XMLName := "", Response := { RequestNumber := "" } }

/-- The zero value of `ErrorPickupRequest`. -/
def zeroError : ErrorPickupRequest := { XMLName := "", Code := "", Description := "", BadData := "" }

/-! ## XML documents -/

/-- A well-formed XML tree: elements with attributes and children, and character
data.  Element names are stored as written (possibly with a `prefix:` part). -/
inductive Xml where
  | elem (name : String) (attrs : List (String × String)) (children : List Xml)
  | text (content : String)

/-- The reply body handed back by the transport: either a well-formed XML
document or bytes that are not well-formed XML. -/
inductive ReplyBody where
  | xmlDoc (doc : Xml)
  | notXml (raw : String)

/-- Drop everything through the first `:` of a name, as the Go XML parser does
when it computes `Name.Local`; `none` when there is no colon. -/
def afterColon : List Char → Option (List Char)
  | [] => none
  | c :: cs => if c = ':' then some cs else afterColon cs

/-- The local part of a (possibly prefixed) element name. -/
def localName (n : String) : String :=
  match afterColon n.data with
  | some l => String.mk l
  | none => n

/-- Character data directly contained in a list of children (Go's unmarshal of a
string field collects the element's character data).  The singleton case is
split out so that it computes to `s` without a trailing `++ ""`. -/
def textOf : List Xml → String
  | [] => ""
  | [Xml.text s] => s
  | Xml.text s :: rest => s ++ textOf rest
  | Xml.elem _ _ _ :: rest => textOf rest

/-- First child element whose local name is `nm`. -/
def findChild (nm : String) : List Xml → Option Xml
  | [] => none
  | Xml.elem n a cs :: rest =>
      if localName n = nm then some (Xml.elem n a cs) else findChild nm rest
  | Xml.text _ :: rest => findChild nm rest

/-- The children of an element (empty for character data). -/
def childrenOf : Xml → List Xml
  | Xml.elem _ _ cs => cs
  | Xml.text _ => []

/-- The character data of a node. -/
def elemText : Xml → String
  | Xml.elem _ _ cs => textOf cs
  | Xml.text s => s

/-! ## Decimal formatting and parsing (strconv model) -/

/-- The ASCII digit character for `d < 10`. -/
def digitChar (d : Nat) : Char := Char.ofNat (48 + d)

/-- Big-endian decimal digits of `n`, prepended to `acc`; fuel-based so that it
is structurally recursive (fuel `n+1` always suffices). -/
def natDigitsAux : Nat → Nat → List Char → List Char
  | 0, _, acc => acc
  | fuel+1, n, acc =>
    if n < 10 then digitChar n :: acc
    else natDigitsAux fuel (n / 10) (digitChar (n % 10) :: acc)

/-- Decimal digits of `n` (model of `strconv.FormatUint(n, 10)`). -/
def natDigits (n : Nat) : List Char := natDigitsAux (n + 1) n []

/-- Model of `strconv.FormatUint` used by `encoding/xml` for `uint` fields. -/
def fmtNat (n : Nat) : String := String.mk (natDigits n)

/-- The numeric value of an ASCII digit character. -/
def digitVal (c : Char) : Option Nat :=
  if 48 ≤ c.toNat ∧ c.toNat ≤ 57 then some (c.toNat - 48) else none

/-- Left-to-right accumulation of decimal digits; fails on a non-digit. -/
def parseDigitsAux : List Char → Nat → Option Nat
  | [], acc => some acc
  | c :: cs, acc =>
    match digitVal c with
    | some d => parseDigitsAux cs (10 * acc + d)
    | none => none

/-- Model of `strconv.ParseUint(_, 10, _)`: a non-empty string of decimal digits. -/
def parseNatDigits (cs : List Char) : Option Nat :=
  match cs with
  | [] => none
  | c :: rest => parseDigitsAux (c :: rest) 0

/-- `strconv.ParseUint` on a `String`. -/
def parseNatStr (str : String) : Option Nat := parseNatDigits str.data

/-- Split a character list at its first `'.'`; `none` when there is no dot. -/
def splitAtDot : List Char → Option (List Char × List Char)
  | [] => none
  | c :: cs =>
    if c = '.' then some ([], cs)
    else (splitAtDot cs).map (fun p => (c :: p.1, p.2))

/-- The digits of `n`, zero-padded on the left to at least `s + 1` characters. -/
def padDigits (n s : Nat) : List Char :=
  List.replicate (s + 1 - (natDigits n).length) '0' ++ natDigits n

/-- The digit list of the absolute value `n / 10^s`, zero-padded so that at
least one digit stands before the decimal point. -/
def fmtGoFloatAbs (n : Nat) (s : Nat) : List Char :=
  if s = 0 then natDigits n
  else (padDigits n s).take ((padDigits n s).length - s) ++
    '.' :: (padDigits n s).drop ((padDigits n s).length - s)

/-- Model of `strconv.FormatFloat(_, 'g', -1, 64)` on the decimal model of a
finite float64: the exact plain-decimal rendering of the value. -/
def fmtGoFloat (f : GoFloat) : String :=
  if f.m < 0 then String.mk ('-' :: fmtGoFloatAbs f.m.natAbs f.s)
  else String.mk (fmtGoFloatAbs f.m.natAbs f.s)

/-- Parse an unsigned decimal, with an optional fractional part. -/
def parseGoFloatChars (cs : List Char) : Option GoFloat :=
  match splitAtDot cs with
  | none => (parseNatDigits cs).map (fun n => { m := (n : Int), s := 0 })
  | some (a, b) =>
    if a = [] ∨ b = [] then none
    else (parseNatDigits (a ++ b)).map (fun n => { m := (n : Int), s := b.length })

/-- Model of `strconv.ParseFloat` on the decimal model: optional sign, digits,
optional fractional part. -/
def parseGoFloat (str : String) : Option GoFloat :=
  if str.data.head? = some '-' then
    (parseGoFloatChars str.data.tail).map (fun f => { m := -f.m, s := f.s })
  else parseGoFloatChars str.data

/-! ## Marshaling (model of `xml.Marshal` on `PickupRequest`)

`encoding/xml` writes the struct fields in declaration order, one element per
field, nested exactly as the `xml:"..."` tags dictate; a string field is
written as an element containing its (escaped) character data, with empty
strings producing an empty element rather than omitting it. -/

/-- A leaf element holding character data. -/
def leafS (nm v : String) : Xml := Xml.elem nm [] [Xml.text v]

/-- A leaf element holding a `uint` field. -/
def leafN (nm : String) (v : Nat) : Xml := Xml.elem nm [] [Xml.text (fmtNat v)]

/-- A leaf element holding a `float64` field. -/
def leafF (nm : String) (v : GoFloat) : Xml := Xml.elem nm [] [Xml.text (fmtGoFloat v)]

/-- The children of `<addressInfo>`: the `Address` fields in declaration order
(`addressLine2` is declared last in the struct, so it is marshaled last). -/
def addressChildren (a : Address) : List Xml :=
  [leafS "addressLine1" a.AddressLine1,
   leafS "city" a.City,
   leafS "stateProvince" a.StateProvince,
   leafS "postalCode" a.PostalCode,
   leafS "countryAbbrev" a.Country,
   leafS "addressLine2" a.AddressLine2]

/-- The children of `<shipperContact>`: the `Contact` fields in declaration order. -/
def contactChildren (c : Contact) : List Xml :=
  [Xml.elem "name" []
     [leafS "firstName" c.Name.First,
      leafS "middleName" c.Name.Middle,
      leafS "lastName" c.Name.Last],
   leafS "email" c.Email,
   Xml.elem "phone" []
     [leafS "areaCode" c.Phone.AreaCode,
      leafS "number" c.Phone.Number]]

/-- `<shipper>` with its nested `shipperAddress>addressInfo` and
`shipperContacts>shipperContact` wrappers, per the `Shipper` struct tags. -/
def marshalShipper (sh : Shipper) : Xml :=
  Xml.elem "shipper" []
    [leafS "shipperName" sh.ShipperName,
     Xml.elem "shipperAddress" [] [Xml.elem "addressInfo" [] (addressChildren sh.ShipperAddress)],
     Xml.elem "shipperContacts" [] [Xml.elem "shipperContact" [] (contactChildren sh.ShipperContact)]]

/-- The children of `<pickupRequestInput>`: the `PickupRequestInput` fields in
declaration order. -/
def inputChildren (p : PickupRequestInput) : List Xml :=
  [marshalShipper p.Shipper,
   leafS "pickupDate" p.PickupDate,
   leafS "pickupStartTime" p.PickupStartTime,
   leafS "pickupEndTime" p.PickupEndTime,
   leafN "totalPieces" p.TotalPieces,
   leafF "totalWeight" p.TotalWeight,
   leafN "totalHandlingUnits" p.TotalHandlingUnits,
   leafS "requestNumber" p.RequestNumber,
   leafS "whoRequested" p.WhoRequested]

/-- `xml.Marshal` of a `PickupRequest` as an XML tree: the
`soapenv:Envelope` root with its two namespace attributes (in field order) and
the `soapenv:Body>est:createPickupRequestWS>pickupRequestInput` nesting from the
struct tag on line 60 of estes.go. -/
def marshalPickupRequest (pr : PickupRequest) : Xml :=
  Xml.elem "soapenv:Envelope"
    [("xmlns:soapenv", pr.SoapenvAttr), ("xmlns:est", pr.EstAttr)]
    [Xml.elem "soapenv:Body" []
       [Xml.elem "est:createPickupRequestWS" []
          [Xml.elem "pickupRequestInput" [] (inputChildren pr.PickupRequestInput)]]]

/-! ## Rendering to bytes -/

/-- Escaping performed by `xml.EscapeText` on character data and attribute
values. -/
def escapeChar (c : Char) : String :=
  if c = '&' then "&amp;"
  else if c = '<' then "&lt;"
  else if c = '>' then "&gt;"
  else if c = '"' then "&#34;"
  else if c = '\'' then "&#39;"
  else if c = '\t' then "&#x9;"
  else if c = '\n' then "&#xA;"
  else if c = '\r' then "&#xD;"
  else String.mk [c]

/-- Escape a whole string. -/
def escapeStr (s : String) : String := String.join (s.data.map escapeChar)

/-- Render an attribute list as ` k="v"` pieces, in order. -/
def renderAttrs : List (String × String) → String
  | [] => ""
  | (k, v) :: rest => " " ++ k ++ "=" ++ "\"" ++ escapeStr v ++ "\"" ++ renderAttrs rest

mutual
/-- Render an XML tree to its byte representation, as `xml.Marshal` emits it. -/
def renderXml : Xml → String
  | Xml.text s => escapeStr s
  | Xml.elem n attrs cs => "<" ++ n ++ renderAttrs attrs ++ ">" ++ renderChildren cs ++ "</" ++ n ++ ">"

/-- Render a list of XML trees in order. -/
def renderChildren : List Xml → String
  | [] => ""
  | c :: rest => renderXml c ++ renderChildren rest
end

/-! ## Reply classification (models of `xml.Unmarshal` at lines 203 and 217) -/

/-- `xml.Unmarshal(body, &responseData)` with `responseData` a
`SuccessfulPickupRequest`: the root element must have local name `Envelope`
(the tag on line 124); the request number is the character data of the
`Body>createPickupRequestWSResponse>requestNumber` path, with missing elements
leaving the zero value, exactly as `encoding/xml` behaves.  The error strings
model the messages of Go's `xml` errors. -/
def unmarshalSuccessful (doc : Xml) : Except String SuccessfulPickupRequest :=
  match doc with
  | Xml.text _ => Except.error "XML syntax error"
  | Xml.elem n _ cs =>
    if localName n = "Envelope" then
      let num :=
        match findChild "Body" cs with
        | some body =>
          match findChild "createPickupRequestWSResponse" (childrenOf body) with
          | some resp =>
            match findChild "requestNumber" (childrenOf resp) with
            | some rn => elemText rn
            | none => ""
          | none => ""
        | none => ""
      Except.ok { XMLName := "Envelope", Response := { RequestNumber := num } }
    else Except.error ("expected element type <Envelope> but have <" ++ localName n ++ ">")

/-- `xml.Unmarshal(body, &errorData)` with `errorData` an `ErrorPickupRequest`:
the root element must have local name `error` (the tag on line 135); the three
fields are the character data of the `code`, `description` and `badData`
children, missing ones leaving the zero value. -/
def unmarshalError (doc : Xml) : Except String ErrorPickupRequest :=
  match doc with
  | Xml.text _ => Except.error "XML syntax error"
  | Xml.elem n _ cs =>
    if localName n = "error" then
      Except.ok
        { XMLName := "error"
          Code := (match findChild "code" cs with
                   | some el => elemText el
                   | none => "")
          Description := (match findChild "description" cs with
                          | some el => elemText el
                          | none => "")
          BadData := (match findChild "badData" cs with
                      | some el => elemText el
                      | none => "") }
    else Except.error ("expected element type <error> but have <" ++ localName n ++ ">")

/-- Unmarshal a raw reply body as a `SuccessfulPickupRequest`; a body that is
not well-formed XML fails with a syntax error, as in Go. -/
def unmarshalSuccessfulBody : ReplyBody → Except String SuccessfulPickupRequest
  | ReplyBody.xmlDoc doc => unmarshalSuccessful doc
  | ReplyBody.notXml _ => Except.error "XML syntax error"

/-- Unmarshal a raw reply body as an `ErrorPickupRequest`. -/
def unmarshalErrorBody : ReplyBody → Except String ErrorPickupRequest
  | ReplyBody.xmlDoc doc => unmarshalError doc
  | ReplyBody.notXml _ => Except.error "XML syntax error"

/-- Line 217 of estes.go ignores the error returned by `xml.Unmarshal`, so the
logged `errorData` is the parsed value on success and the untouched zero value
on failure. -/
def errorDataOf (body : ReplyBody) : ErrorPickupRequest :=
  match unmarshalErrorBody body with
  | Except.ok e => e
  | Except.error _ => zeroError

/-! ## The `RequestPickup` operation (estes.go lines 157-228) -/

/-- The HTTP request built at lines 180-187: method, target URL, content type,
basic-auth credentials, and the marshaled body bytes. -/
structure HttpRequest where
  method : String
  url : String
  contentType : String
  user : String
  pass : String
  body : String
deriving DecidableEq, Repr

/-- Outcome of the network interaction, an input to the model: `postFail` is an
error from `httpClient.Do`, `readFail` an error from `ioutil.ReadAll`, and
`ok body` a fully read reply body. -/
inductive TransportResult where
  | postFail
  | readFail
  | ok (body : ReplyBody)

/-- Everything observable about one execution of `RequestPickup`: the
configuration it ran under, the client timeout it applied, the HTTP request it
built, the returned `(responseData, err)` pair, the `errorData` value it logs
on the rejected path, and the final value of the receiver `*p`. -/
structure RequestPickupRun where
  configuredURL : String
  timeoutApplied : Int
  envelope : PickupRequest
  request : HttpRequest
  responseData : SuccessfulPickupRequest
  errorData : ErrorPickupRequest
  err : Option String
  receiverFinal : PickupRequestInput

/-- Error message of `errors.Wrap(err, "estes.RequestPickup - could not make post request")`. -/
def errPostMsg : String := "estes.RequestPickup - could not make post request"

/-- Error message of the wrap at line 199. -/
def errReadMsg : String := "estes.RequestPickup - could not read response 1"

/-- Error message of the wrap at line 206 (`errors.Wrap` joins with `": "`). -/
def errUnmarshalMsg (inner : String) : String :=
  "estes.RequestPickup - could not read response 2: " ++ inner

/-- Error message of `errors.New` at line 219. -/
def errFailedMsg : String := "estes.RequestPickup - pickup request failed"

/-- Shallow embedding of `RequestPickup` (estes.go lines 157-228).

Inputs beyond the Go arguments make the package-level state and the external
world explicit: `estesURL` and `timeout` are the current values of the two
package variables, and `transport` is the outcome of the single network call.
`xml.Marshal` cannot fail on `PickupRequest` (fixed shape, no unsupported
types) and `http.NewRequest` cannot fail on the constant method and URL, so
those two early-return paths are unreachable and the model is total.

Note the POST target: line 180 passes `estesProductionURL` — not the
configured `estesURL` variable — so the built request always targets the
production URL. -/
def RequestPickup (p : PickupRequestInput) (estesUsername estesPassword : String)
    (estesURL : String) (timeout : Int) (transport : TransportResult) : RequestPickupRun :=
  let pickup : PickupRequest :=
    { SoapenvAttr := soapenvAttr, EstAttr := estAttr, PickupRequestInput := p }
  let xmlBytes := renderXml (marshalPickupRequest pickup)
  let req : HttpRequest :=
    { method := "POST", url := estesProductionURL, contentType := "text/xml",
      user := estesUsername, pass := estesPassword, body := xmlBytes }
  match transport with
  | TransportResult.postFail =>
    { configuredURL := estesURL, timeoutApplied := timeout, envelope := pickup,
      request := req, responseData := zeroSuccess, errorData := zeroError,
      err := some errPostMsg, receiverFinal := p }
  | TransportResult.readFail =>
    { configuredURL := estesURL, timeoutApplied := timeout, envelope := pickup,
      request := req, responseData := zeroSuccess, errorData := zeroError,
      err := some errReadMsg, receiverFinal := p }
  | TransportResult.ok body =>
    match unmarshalSuccessfulBody body with
    | Except.error m =>
      { configuredURL := estesURL, timeoutApplied := timeout, envelope := pickup,
        request := req, responseData := zeroSuccess, errorData := zeroError,
        err := some (errUnmarshalMsg m), receiverFinal := p }
    | Except.ok rd =>
      if rd.Response.RequestNumber = "" then
        { configuredURL := estesURL, timeoutApplied := timeout, envelope := pickup,
          request := req, responseData := rd, errorData := errorDataOf body,
          err := some errFailedMsg, receiverFinal := p }
      else
        { configuredURL := estesURL, timeoutApplied := timeout, envelope := pickup,
          request := req, responseData := rd, errorData := zeroError,
          err := none, receiverFinal := p }

/-- The serializer applied by `RequestPickup` to its input (lines 159-166), as
bytes: the envelope built from the two namespace constants and the input. -/
def pickupBytes (p : PickupRequestInput) : String :=
  renderXml (marshalPickupRequest
    { SoapenvAttr := soapenvAttr, EstAttr := estAttr, PickupRequestInput := p })

/-! ## Schema parse of the produced envelope (spec side of the round trip)

The spec's round-trip property reads the produced document back "against the
documented schema".  `parsePickupSchema` is that reading: it walks the same
element structure the struct tags document (matching names by their local
part, as a namespace-aware reader does), takes each leaf's character data, and
decodes the numeric leaves with the `strconv` models.  Every element must be
present — empty optional fields are empty elements, not omitted ones. -/

/-- Character data of the child element `nm`, if present. -/
def childText (nm : String) (cs : List Xml) : Option String :=
  (findChild nm cs).map elemText

/-- Read an `Address` from the children of `<addressInfo>`. -/
def parseAddress (cs : List Xml) : Option Address := do
  let a1 ← childText "addressLine1" cs
  let ci ← childText "city" cs
  let sp ← childText "stateProvince" cs
  let pc ← childText "postalCode" cs
  let co ← childText "countryAbbrev" cs
  let a2 ← childText "addressLine2" cs
  pure { AddressLine1 := a1, City := ci, StateProvince := sp,
         PostalCode := pc, Country := co, AddressLine2 := a2 }

/-- Read a `Contact` from the children of `<shipperContact>`. -/
def parseContact (cs : List Xml) : Option Contact := do
  let nmEl ← findChild "name" cs
  let fi ← childText "firstName" (childrenOf nmEl)
  let mi ← childText "middleName" (childrenOf nmEl)
  let la ← childText "lastName" (childrenOf nmEl)
  let em ← childText "email" cs
  let phEl ← findChild "phone" cs
  let ac ← childText "areaCode" (childrenOf phEl)
  let nu ← childText "number" (childrenOf phEl)
  pure { Name := { First := fi, Middle := mi, Last := la }, Email := em,
         Phone := { AreaCode := ac, Number := nu } }

/-- Read a `Shipper` from the children of `<shipper>`. -/
def parseShipper (cs : List Xml) : Option Shipper := do
  let nm ← childText "shipperName" cs
  let saEl ← findChild "shipperAddress" cs
  let aiEl ← findChild "addressInfo" (childrenOf saEl)
  let addr ← parseAddress (childrenOf aiEl)
  let scsEl ← findChild "shipperContacts" cs
  let scEl ← findChild "shipperContact" (childrenOf scsEl)
  let cont ← parseContact (childrenOf scEl)
  pure { ShipperName := nm, ShipperAddress := addr, ShipperContact := cont }

/-- Is `c` an ASCII decimal digit? -/
def isDigitCh (c : Char) : Bool := 48 ≤ c.toNat && c.toNat ≤ 57

/-- The envelope `RequestPickup` builds at lines 159-163: the two namespace
constants plus the (copied) input. -/
def pickupEnvelope (p : PickupRequestInput) : PickupRequest :=
  { SoapenvAttr := soapenvAttr, EstAttr := estAttr, PickupRequestInput := p }

/-- Does `needle` occur as a contiguous substring of `hay`?  Used to express
"the error carries this field value": a fixed-message error from which a field
value is retrievable would at least have to contain it. -/
def containsSub (hay needle : List Char) : Bool :=
  match hay with
  | [] => needle.isEmpty
  | c :: t => needle.isPrefixOf (c :: t) || containsSub t needle

/-- Substring test on strings. -/
def containsStr (hay needle : String) : Bool := containsSub hay.data needle.data

/-- Read a `PickupRequestInput` from a produced envelope document, following
the documented `soapenv:Body > est:createPickupRequestWS > pickupRequestInput`
structure and the field elements in the documented order. -/
def parsePickupSchema (doc : Xml) : Option PickupRequestInput := do
  let bodyEl ← findChild "Body" (childrenOf doc)
  let opEl ← findChild "createPickupRequestWS" (childrenOf bodyEl)
  let inEl ← findChild "pickupRequestInput" (childrenOf opEl)
  let cs := childrenOf inEl
  let shEl ← findChild "shipper" cs
  let sh ← parseShipper (childrenOf shEl)
  let pd ← childText "pickupDate" cs
  let pst ← childText "pickupStartTime" cs
  let pet ← childText "pickupEndTime" cs
  let tps ← childText "totalPieces" cs
  let tp ← parseNatStr tps
  let tws ← childText "totalWeight" cs
  let tw ← parseGoFloat tws
  let ths ← childText "totalHandlingUnits" cs
  let th ← parseNatStr ths
  let rn ← childText "requestNumber" cs
  let wr ← childText "whoRequested" cs
  pure { Shipper := sh, PickupDate := pd, PickupStartTime := pst, PickupEndTime := pet,
         TotalPieces := tp, TotalWeight := tw, TotalHandlingUnits := th,
         RequestNumber := rn, WhoRequested := wr }

/-! ## Concrete sample values -/

/-- A concrete pickup request input used for evaluation. -/
def sampleInput : PickupRequestInput :=
  { Shipper := { ShipperName := "Acme Co",
                 ShipperAddress := { AddressLine1 := "1 Main St", City := "Harrisburg",
                                     StateProvince := "PA", PostalCode := "17101",
                                     Country := "US", AddressLine2 := "" },
                 ShipperContact := { Name := { First := "Ann", Middle := "", Last := "Lee" },
                                     Email := "ann@acme.test",
                                     Phone := { AreaCode := "717", Number := "5550100" } } },
    PickupDate := "2020-03-04", PickupStartTime := "0900", PickupEndTime := "1600",
    TotalPieces := 4, TotalWeight := { m := 205, s := 1 }, TotalHandlingUnits := 2,
    RequestNumber := "", WhoRequested := "Ann" }

/-- A reply body in the success shape carrying request number `num`. -/
def successBody (num : String) : ReplyBody :=
  ReplyBody.xmlDoc (Xml.elem "Envelope" []
    [Xml.elem "Body" []
       [Xml.elem "createPickupRequestWSResponse" []
          [Xml.elem "requestNumber" [] [Xml.text num]]]])

/-- A reply body in the error shape with code `E17`. -/
def errorBody : ReplyBody :=
  ReplyBody.xmlDoc (Xml.elem "error" []
    [Xml.elem "code" [] [Xml.text "E17"],
     Xml.elem "description" [] [Xml.text "invalid postal code"],
     Xml.elem "badData" [] [Xml.text "00000"]])

theorem digitVal_digitChar : ∀ d : Nat, d < 10 → digitVal (digitChar d) = some d := by
  decide

theorem isDigitCh_digitChar : ∀ d : Nat, d < 10 → isDigitCh (digitChar d) = true := by
  decide

/-- Parsing the formatted digits of `n` (with any continuation) continues with
accumulator `n`. -/
theorem parseDigitsAux_natDigitsAux (fuel : Nat) :
    ∀ n, n < fuel → ∀ rest, parseDigitsAux (natDigitsAux fuel n rest) 0 = parseDigitsAux rest n := by
  induction fuel with
  | zero => intro n h; omega
  | succ fuel ih =>
    intro n h rest
    by_cases h10 : n < 10
    · simp [natDigitsAux, h10, parseDigitsAux, digitVal_digitChar n h10]
    · have hlt : n / 10 < fuel := by omega
      have h9 : n % 10 < 10 := Nat.mod_lt _ (by omega)
      rw [natDigitsAux, if_neg h10, ih (n / 10) hlt]
      rw [parseDigitsAux, digitVal_digitChar _ h9]
      show parseDigitsAux rest (10 * (n / 10) + n % 10) = parseDigitsAux rest n
      congr 1
      omega

/-- Every character `natDigitsAux` adds is a digit. -/
theorem natDigitsAux_digits (fuel : Nat) :
    ∀ n acc, (∀ c ∈ acc, isDigitCh c = true) →
      ∀ c ∈ natDigitsAux fuel n acc, isDigitCh c = true := by
  induction fuel with
  | zero => intro n acc hacc; exact hacc
  | succ fuel ih =>
    intro n acc hacc c hc
    by_cases h10 : n < 10
    · rw [natDigitsAux, if_pos h10] at hc
      rcases List.mem_cons.mp hc with h | h
      · subst h; exact isDigitCh_digitChar n h10
      · exact hacc c h
    · rw [natDigitsAux, if_neg h10] at hc
      refine ih (n / 10) _ ?_ c hc
      intro d hd
      rcases List.mem_cons.mp hd with h | h
      · subst h; exact isDigitCh_digitChar _ (Nat.mod_lt _ (by omega))
      · exact hacc d h

theorem natDigits_digits (n : Nat) : ∀ c ∈ natDigits n, isDigitCh c = true :=
  natDigitsAux_digits (n + 1) n [] (by intro c hc; cases hc)

/-- `natDigitsAux` never returns the empty list when its accumulator is
non-empty. -/
theorem natDigitsAux_ne_nil_acc (fuel : Nat) :
    ∀ n acc, acc ≠ [] → natDigitsAux fuel n acc ≠ [] := by
  induction fuel with
  | zero => intro n acc h; exact h
  | succ fuel ih =>
    intro n acc h
    by_cases h10 : n < 10
    · rw [natDigitsAux, if_pos h10]; exact List.cons_ne_nil _ _
    · rw [natDigitsAux, if_neg h10]
      exact ih (n / 10) _ (List.cons_ne_nil _ _)

theorem natDigits_ne_nil (n : Nat) : natDigits n ≠ [] := by
  rw [natDigits]
  by_cases h10 : n < 10
  · rw [natDigitsAux, if_pos h10]; exact List.cons_ne_nil _ _
  · rw [natDigitsAux, if_neg h10]
    exact natDigitsAux_ne_nil_acc _ _ _ (List.cons_ne_nil _ _)

theorem parseNatDigits_natDigits (n : Nat) : parseNatDigits (natDigits n) = some n := by
  have h2 : parseDigitsAux (natDigits n) 0 = some n := by
    have := parseDigitsAux_natDigitsAux (n + 1) n (by omega) []
    rw [natDigits]
    rw [this]
    rfl
  cases hnd : natDigits n with
  | nil => exact absurd hnd (natDigits_ne_nil n)
  | cons c rest => rw [parseNatDigits, ← hnd, h2]

/-- `strconv.ParseUint` inverts `strconv.FormatUint`. -/
theorem parseNatStr_fmtNat (n : Nat) : parseNatStr (fmtNat n) = some n :=
  parseNatDigits_natDigits n

/-- Leading zeros do not change the parsed value when the accumulator is 0. -/
theorem parseDigitsAux_replicate_zero :
    ∀ k l, parseDigitsAux (List.replicate k '0' ++ l) 0 = parseDigitsAux l 0 := by
  intro k
  induction k with
  | zero => intro l; rfl
  | succ k ih =>
    intro l
    rw [List.replicate_succ, List.cons_append, parseDigitsAux]
    have : digitVal '0' = some 0 := by decide
    rw [this]
    exact ih l

theorem splitAtDot_no_dot : ∀ l : List Char, (∀ c ∈ l, c ≠ '.') → splitAtDot l = none := by
  intro l
  induction l with
  | nil => intro _; rfl
  | cons c cs ih =>
    intro h
    rw [splitAtDot, if_neg (h c (List.mem_cons_self c cs)), ih]
    · rfl
    · intro d hd; exact h d (List.mem_cons_of_mem c hd)

theorem splitAtDot_append :
    ∀ l₁ l₂ : List Char, (∀ c ∈ l₁, c ≠ '.') →
      splitAtDot (l₁ ++ '.' :: l₂) = some (l₁, l₂) := by
  intro l₁
  induction l₁ with
  | nil => intro l₂ _; rw [List.nil_append, splitAtDot, if_pos rfl]
  | cons c cs ih =>
    intro l₂ h
    rw [List.cons_append, splitAtDot, if_neg (h c (List.mem_cons_self c cs)),
      ih l₂ (fun d hd => h d (List.mem_cons_of_mem c hd))]
    rfl

theorem parseDigitsAux_natDigits (n : Nat) : parseDigitsAux (natDigits n) 0 = some n := by
  have h := parseDigitsAux_natDigitsAux (n + 1) n (by omega) []
  rw [natDigits, h]
  rfl

theorem parseNatDigits_eq_of_ne_nil (l : List Char) (h : l ≠ []) :
    parseNatDigits l = parseDigitsAux l 0 := by
  cases l with
  | nil => exact absurd rfl h
  | cons c cs => rfl

theorem padDigits_digits (n s : Nat) : ∀ c ∈ padDigits n s, isDigitCh c = true := by
  intro c hc
  rcases List.mem_append.mp hc with h | h
  · rw [List.eq_of_mem_replicate h]; decide
  · exact natDigits_digits n c h

theorem padDigits_length (n s : Nat) : s + 1 ≤ (padDigits n s).length := by
  rw [padDigits, List.length_append, List.length_replicate]
  omega

theorem padDigits_ne_nil (n s : Nat) : padDigits n s ≠ [] := by
  intro h
  have := padDigits_length n s
  rw [h] at this
  simp at this

/-- An ASCII digit is not a dot. -/
theorem digit_ne_dot {c : Char} (h : isDigitCh c = true) : c ≠ '.' := by
  intro heq
  subst heq
  exact absurd h (by decide)

/-- An ASCII digit is not a minus sign. -/
theorem digit_ne_minus {c : Char} (h : isDigitCh c = true) : c ≠ '-' := by
  intro heq
  subst heq
  exact absurd h (by decide)

/-- Parsing the plain-decimal rendering of `n / 10^s` recovers `(n, s)`. -/
theorem parseGoFloatChars_fmtGoFloatAbs (n s : Nat) :
    parseGoFloatChars (fmtGoFloatAbs n s) = some { m := (n : Int), s := s } := by
  by_cases hs : s = 0
  · subst hs
    rw [fmtGoFloatAbs, if_pos rfl, parseGoFloatChars,
      splitAtDot_no_dot _ (fun c hc => digit_ne_dot (natDigits_digits n c hc)),
      parseNatDigits_natDigits]
    rfl
  · have hlen := padDigits_length n s
    have htakedig : ∀ c ∈ (padDigits n s).take ((padDigits n s).length - s), c ≠ '.' := by
      intro c hc
      exact digit_ne_dot (padDigits_digits n s c (List.take_subset _ _ hc))
    have htlen : ((padDigits n s).take ((padDigits n s).length - s)).length =
        (padDigits n s).length - s := by
      rw [List.length_take]
      omega
    have hdlen : ((padDigits n s).drop ((padDigits n s).length - s)).length = s := by
      rw [List.length_drop]
      omega
    have htne : (padDigits n s).take ((padDigits n s).length - s) ≠ [] := by
      intro h
      rw [h] at htlen
      simp at htlen
      omega
    have hdne : (padDigits n s).drop ((padDigits n s).length - s) ≠ [] := by
      intro h
      rw [h] at hdlen
      simp at hdlen
      exact hs hdlen.symm
    have hparse : parseNatDigits (padDigits n s) = some n := by
      rw [parseNatDigits_eq_of_ne_nil _ (padDigits_ne_nil n s), padDigits,
        parseDigitsAux_replicate_zero, parseDigitsAux_natDigits]
    rw [fmtGoFloatAbs, if_neg hs]
    simp only [parseGoFloatChars, splitAtDot_append _ _ htakedig]
    rw [if_neg (by rw [not_or]; exact ⟨htne, hdne⟩)]
    rw [List.take_append_drop, hparse, hdlen]
    rfl

/-- Every character of the rendered absolute value is a digit or the dot. -/
theorem fmtGoFloatAbs_chars (n s : Nat) :
    ∀ c ∈ fmtGoFloatAbs n s, isDigitCh c = true ∨ c = '.' := by
  intro c hc
  by_cases hs : s = 0
  · subst hs
    rw [fmtGoFloatAbs, if_pos rfl] at hc
    exact Or.inl (natDigits_digits n c hc)
  · rw [fmtGoFloatAbs, if_neg hs] at hc
    rcases List.mem_append.mp hc with h | h
    · exact Or.inl (padDigits_digits n s c (List.take_subset _ _ h))
    · rcases List.mem_cons.mp h with h | h
      · exact Or.inr h
      · exact Or.inl (padDigits_digits n s c (List.drop_subset _ _ h))

/-- `strconv.ParseFloat` inverts the float rendering on the decimal model. -/
theorem parseGoFloat_fmtGoFloat (f : GoFloat) : parseGoFloat (fmtGoFloat f) = some f := by
  cases f with
  | mk m s =>
    by_cases hm : m < 0
    · rw [fmtGoFloat, if_pos hm, parseGoFloat]
      have hcond : (String.mk ('-' :: fmtGoFloatAbs m.natAbs s)).data.head? = some '-' := rfl
      rw [if_pos hcond]
      show (parseGoFloatChars (fmtGoFloatAbs m.natAbs s)).map
        (fun f => ({ m := -f.m, s := f.s } : GoFloat)) = some { m := m, s := s }
      rw [parseGoFloatChars_fmtGoFloatAbs]
      simp only [Option.map_some']
      have habs : -((m.natAbs : Int)) = m := by omega
      rw [habs]
    · have hne : (String.mk (fmtGoFloatAbs m.natAbs s)).data.head? ≠ some '-' := by
        show (fmtGoFloatAbs m.natAbs s).head? ≠ some '-'
        cases hF : fmtGoFloatAbs m.natAbs s with
        | nil => simp
        | cons c cs =>
          rw [List.head?_cons]
          intro h
          have hc : c = '-' := by injection h
          have hmem : c ∈ fmtGoFloatAbs m.natAbs s := by
            rw [hF]
            exact List.mem_cons_self c cs
          rcases fmtGoFloatAbs_chars m.natAbs s c hmem with hd | hd
          · exact digit_ne_minus hd hc
          · subst hc
            exact absurd hd (by decide)
      rw [fmtGoFloat, if_neg hm, parseGoFloat, if_neg hne]
      show parseGoFloatChars (fmtGoFloatAbs m.natAbs s) = _
      rw [parseGoFloatChars_fmtGoFloatAbs]
      have habs : ((m.natAbs : Int)) = m := by omega
      rw [habs]

/-! ## Lemmas: the structural round trip -/

theorem optBind_some (a : α) (f : α → Option β) : (some a).bind f = f a := rfl

/-- Parsing the marshaled envelope computes, definitionally, down to the three
numeric leaf parses; all structural navigation and every string leaf reduce by
evaluation. -/
theorem parsePickupSchema_marshal (p : PickupRequestInput) :
    parsePickupSchema (marshalPickupRequest (pickupEnvelope p)) =
      (parseNatStr (fmtNat p.TotalPieces)).bind (fun tp =>
        (parseGoFloat (fmtGoFloat p.TotalWeight)).bind (fun tw =>
          (parseNatStr (fmtNat p.TotalHandlingUnits)).bind (fun th =>
            some { Shipper := p.Shipper, PickupDate := p.PickupDate,
                   PickupStartTime := p.PickupStartTime, PickupEndTime := p.PickupEndTime,
                   TotalPieces := tp, TotalWeight := tw, TotalHandlingUnits := th,
                   RequestNumber := p.RequestNumber, WhoRequested := p.WhoRequested }))) := rfl

/-- `wrap64` is the identity on values already in the int64 range. -/
theorem wrap64_eq_of_bounded (x : Int) (h1 : -(2 ^ 63) ≤ x) (h2 : x < 2 ^ 63) :
    wrap64 x = x := by
  rw [wrap64]
  have h63 : (2 : Int) ^ 63 = 9223372036854775808 := by norm_num
  have h64 : (2 : Int) ^ 64 = 18446744073709551616 := by norm_num
  rw [h63, h64]
  rw [h63] at h1 h2
  omega

/-- The timeout `RequestPickup` hands to the HTTP client is exactly the
current value of the package-level `timeout` variable (lines 174-176). -/
theorem requestPickup_timeoutApplied (p : PickupRequestInput) (user pass url : String)
    (t : Int) (tr : TransportResult) :
    (RequestPickup p user pass url t tr).timeoutApplied = t := by
  cases tr with
  | postFail => rfl
  | readFail => rfl
  | ok body =>
    rw [RequestPickup]
    cases unmarshalSuccessfulBody body with
    | error m => rfl
    | ok rd =>
      by_cases h : rd.Response.RequestNumber = ""
      · simp [h]
      · simp [h]

/-- The URL of the request built by `RequestPickup` is always the hardcoded
`estesProductionURL` (line 180), whatever the configured `estesURL` holds. -/
theorem requestPickup_url (p : PickupRequestInput) (user pass url : String)
    (t : Int) (tr : TransportResult) :
    (RequestPickup p user pass url t tr).request.url = estesProductionURL := by
  cases tr with
  | postFail => rfl
  | readFail => rfl
  | ok body =>
    rw [RequestPickup]
    cases unmarshalSuccessfulBody body with
    | error m => rfl
    | ok rd =>
      by_cases h : rd.Response.RequestNumber = ""
      · simp [h]
      · simp [h]

/-! ## Claims -/

/-- C1: the claim says every `RequestPickup` POST targets the configured
endpoint (test URL while production mode is unset).  The code instead always
passes the hardcoded `estesProductionURL` to `http.NewRequest` (line 180),
never reading the `estesURL` variable that `SetProductionMode` maintains: with
the configuration still at the test URL, the built request targets the
production URL, which differs from the test URL.  This contradicts the code's
own comments at lines 36-40, so the code, not the claim, is wrong. -/
theorem estes_C1_target_ignores_configuration (p : PickupRequestInput)
    (user pass : String) (t : Int) (tr : TransportResult) :
    (RequestPickup p user pass estesTestURL t tr).configuredURL = estesTestURL ∧
      (RequestPickup p user pass estesTestURL t tr).request.url = estesProductionURL ∧
      (RequestPickup p user pass estesTestURL t tr).request.url ≠ estesTestURL := by
  refine ⟨?_, requestPickup_url p user pass estesTestURL t tr, ?_⟩
  · cases tr with
    | postFail => rfl
    | readFail => rfl
    | ok body =>
      rw [RequestPickup]
      cases unmarshalSuccessfulBody body with
      | error m => rfl
      | ok rd =>
        by_cases h : rd.Response.RequestNumber = ""
        · simp [h]
        · simp [h]
  · rw [requestPickup_url p user pass estesTestURL t tr]
    decide

/-- C5 counterexample: the claim says that after `SetTimeout(d)` the applied
timeout equals `d`.  With `d = 5` (five nanoseconds, since `time.Duration`
counts nanoseconds), the timeout actually applied to the transport call is
`5 * time.Second = 5000000000`, not `5`. -/
theorem estes_C5_counterexample :
    (RequestPickup
        { Shipper := { ShipperName := "s",
                       ShipperAddress := { AddressLine1 := "", City := "", StateProvince := "",
                                           PostalCode := "", Country := "", AddressLine2 := "" },
                       ShipperContact := { Name := { First := "", Middle := "", Last := "" },
                                           Email := "",
                                           Phone := { AreaCode := "", Number := "" } } },
          PickupDate := "", PickupStartTime := "", PickupEndTime := "",
          TotalPieces := 0, TotalWeight := { m := 0, s := 0 }, TotalHandlingUnits := 0,
          RequestNumber := "", WhoRequested := "" }
        "user" "pass" estesTestURL (SetTimeout 5) TransportResult.postFail).timeoutApplied ≠ 5 := by
  decide

/-- C5 (amended): the timeout applied to the transport call is exactly the
configured package variable, and the default is 10 seconds; `SetTimeout d`
stores `d * time.Second` computed in wrapping int64 arithmetic, so whenever
`d * 10^9` fits in int64 the applied timeout is `d` interpreted as a count of
seconds — `d * 10^9` nanoseconds, never the duration `d` itself (except for
`d = 0`) — while for larger arguments the product wraps (at `d = 10^10` the
stored timeout is negative, which disables the client timeout). -/
theorem estes_C5_timeout_applied (p : PickupRequestInput) (user pass url : String)
    (t d : Int) (tr : TransportResult)
    (h1 : -(2 ^ 63) ≤ d * second) (h2 : d * second < 2 ^ 63) :
    (RequestPickup p user pass url t tr).timeoutApplied = t ∧
      SetTimeout d = d * 1000000000 ∧
      defaultTimeout = 10 * second ∧
      (RequestPickup p user pass url (SetTimeout d) tr).timeoutApplied = d * 1000000000 ∧
      SetTimeout 10000000000 < 0 := by
  have hset : SetTimeout d = d * 1000000000 := by
    rw [SetTimeout, wrap64_eq_of_bounded _ h1 h2]
    rfl
  refine ⟨requestPickup_timeoutApplied p user pass url t tr, hset, rfl, ?_, by decide⟩
  rw [requestPickup_timeoutApplied p user pass url (SetTimeout d) tr, hset]

/-- C5 witness: the amended theorem applied at `d = 5`, whose product fits in
int64. -/
theorem estes_C5_witness :
    -(2 ^ 63) ≤ (5 : Int) * second ∧ (5 : Int) * second < 2 ^ 63 ∧
      SetTimeout 5 = 5 * 1000000000 ∧
      (RequestPickup sampleInput "u" "pw" estesTestURL (SetTimeout 5)
          TransportResult.postFail).timeoutApplied = 5 * 1000000000 :=
  ⟨by decide, by decide,
    (estes_C5_timeout_applied sampleInput "u" "pw" estesTestURL defaultTimeout 5
        TransportResult.postFail (by decide) (by decide)).2.1,
    (estes_C5_timeout_applied sampleInput "u" "pw" estesTestURL defaultTimeout 5
        TransportResult.postFail (by decide) (by decide)).2.2.2.1⟩

/-- C6: serialization is deterministic — the serialized bytes are a function
of the field values alone, so two inputs that agree field by field produce
byte-identical XML (the namespace attributes are the two fixed constants). -/
theorem estes_C6_deterministic_serialization (p q : PickupRequestInput)
    (h1 : p.Shipper = q.Shipper) (h2 : p.PickupDate = q.PickupDate)
    (h3 : p.PickupStartTime = q.PickupStartTime) (h4 : p.PickupEndTime = q.PickupEndTime)
    (h5 : p.TotalPieces = q.TotalPieces) (h6 : p.TotalWeight = q.TotalWeight)
    (h7 : p.TotalHandlingUnits = q.TotalHandlingUnits)
    (h8 : p.RequestNumber = q.RequestNumber) (h9 : p.WhoRequested = q.WhoRequested) :
    pickupBytes p = pickupBytes q := by
  have h : p = q := by
    cases p
    cases q
    simp_all
  rw [h]

/-- C6 witness: two structurally identical inputs serialize to identical bytes. -/
theorem estes_C6_witness :
    pickupBytes
        { Shipper := { ShipperName := "Acme",
                       ShipperAddress := { AddressLine1 := "1 Way", City := "Town",
                                           StateProvince := "PA", PostalCode := "17101",
                                           Country := "US", AddressLine2 := "" },
                       ShipperContact := { Name := { First := "A", Middle := "", Last := "B" },
                                           Email := "a@b.c",
                                           Phone := { AreaCode := "717", Number := "5551234" } } },
          PickupDate := "2020-01-02", PickupStartTime := "0800", PickupEndTime := "1700",
          TotalPieces := 3, TotalWeight := { m := 125, s := 1 }, TotalHandlingUnits := 1,
          RequestNumber := "", WhoRequested := "Bob" } =
      pickupBytes
        { Shipper := { ShipperName := "Acme",
                       ShipperAddress := { AddressLine1 := "1 Way", City := "Town",
                                           StateProvince := "PA", PostalCode := "17101",
                                           Country := "US", AddressLine2 := "" },
                       ShipperContact := { Name := { First := "A", Middle := "", Last := "B" },
                                           Email := "a@b.c",
                                           Phone := { AreaCode := "717", Number := "5551234" } } },
          PickupDate := "2020-01-02", PickupStartTime := "0800", PickupEndTime := "1700",
          TotalPieces := 3, TotalWeight := { m := 125, s := 1 }, TotalHandlingUnits := 1,
          RequestNumber := "", WhoRequested := "Bob" } :=
  estes_C6_deterministic_serialization _ _ rfl rfl rfl rfl rfl rfl rfl rfl rfl

/-- C7: round trip — serializing any `PickupRequestInput` into the envelope
document and reading that document back against the documented schema recovers
every field value exactly, including empty optional fields, which are present
as empty elements. -/
theorem estes_C7_roundtrip (p : PickupRequestInput) :
    parsePickupSchema (marshalPickupRequest (pickupEnvelope p)) = some p := by
  rw [parsePickupSchema_marshal, parseNatStr_fmtNat, optBind_some,
    parseGoFloat_fmtGoFloat, optBind_some, parseNatStr_fmtNat, optBind_some]

/-- C9: `SetProductionMode false` never changes the configured URL; once the
variable holds the production URL every further call leaves it there; and no
call ever moves the variable anywhere except to the production URL. -/
theorem estes_C9_no_way_back (b : Bool) (url : String) :
    SetProductionMode false url = url ∧
      SetProductionMode b estesProductionURL = estesProductionURL ∧
      (SetProductionMode b url = url ∨ SetProductionMode b url = estesProductionURL) := by
  refine ⟨rfl, ?_, ?_⟩
  · cases b with
    | false => rfl
    | true => rfl
  · cases b with
    | false => exact Or.inl rfl
    | true => exact Or.inr rfl

/-- C10: `RequestPickup` never mutates its receiver — the receiver's final
value equals its initial value on every path, and the envelope embeds a copy
of the input. -/
theorem estes_C10_receiver_unchanged (p : PickupRequestInput) (user pass url : String)
    (t : Int) (tr : TransportResult) :
    (RequestPickup p user pass url t tr).receiverFinal = p ∧
      (RequestPickup p user pass url t tr).envelope.PickupRequestInput = p := by
  constructor
  · cases tr with
    | postFail => rfl
    | readFail => rfl
    | ok body =>
      rw [RequestPickup]
      cases unmarshalSuccessfulBody body with
      | error m => rfl
      | ok rd =>
        by_cases h : rd.Response.RequestNumber = ""
        · simp [h]
        · simp [h]
  · cases tr with
    | postFail => rfl
    | readFail => rfl
    | ok body =>
      rw [RequestPickup]
      cases unmarshalSuccessfulBody body with
      | error m => rfl
      | ok rd =>
        by_cases h : rd.Response.RequestNumber = ""
        · simp [h]
        · simp [h]

/-! ## Classification lemmas -/

/-- When the success-shape parse fails, `RequestPickup` returns the wrapped
parse error immediately: zero `responseData`, untouched `errorData`. -/
theorem requestPickup_parse_error (p : PickupRequestInput) (user pass url : String)
    (t : Int) (body : ReplyBody) (m : String)
    (h : unmarshalSuccessfulBody body = Except.error m) :
    (RequestPickup p user pass url t (TransportResult.ok body)).err =
        some (errUnmarshalMsg m) ∧
      (RequestPickup p user pass url t (TransportResult.ok body)).responseData = zeroSuccess ∧
      (RequestPickup p user pass url t (TransportResult.ok body)).errorData = zeroError := by
  refine ⟨?_, ?_, ?_⟩ <;> simp [RequestPickup, h]

/-- When the success-shape parse succeeds with an empty request number,
`RequestPickup` fails with the fixed message, returns the parsed value, and
logs the (ignored-error) error-shape parse. -/
theorem requestPickup_rejected (p : PickupRequestInput) (user pass url : String)
    (t : Int) (body : ReplyBody) (rd : SuccessfulPickupRequest)
    (h : unmarshalSuccessfulBody body = Except.ok rd)
    (he : rd.Response.RequestNumber = "") :
    (RequestPickup p user pass url t (TransportResult.ok body)).err = some errFailedMsg ∧
      (RequestPickup p user pass url t (TransportResult.ok body)).responseData = rd ∧
      (RequestPickup p user pass url t (TransportResult.ok body)).errorData =
        errorDataOf body := by
  refine ⟨?_, ?_, ?_⟩ <;> simp [RequestPickup, h, he]

/-- When the success-shape parse succeeds with a non-empty request number,
`RequestPickup` returns it with a nil error. -/
theorem requestPickup_success (p : PickupRequestInput) (user pass url : String)
    (t : Int) (body : ReplyBody) (rd : SuccessfulPickupRequest)
    (h : unmarshalSuccessfulBody body = Except.ok rd)
    (he : rd.Response.RequestNumber ≠ "") :
    (RequestPickup p user pass url t (TransportResult.ok body)).err = none ∧
      (RequestPickup p user pass url t (TransportResult.ok body)).responseData = rd := by
  refine ⟨?_, ?_⟩ <;> simp [RequestPickup, h, he]

/-- C2 counterexample: a reply body in the error shape (`errorBody`, code
`E17`).  Its request number is absent (the success-shape parse fails, which is
how an absent number manifests for an `<error>` root) and it parses as the
error shape — yet the error `RequestPickup` returns is the fixed wrapped
parse-failure message, whose content does not even contain the carrier's code,
so the carrier's field values are not retrievable from the returned error. -/
theorem estes_C2_counterexample :
    unmarshalErrorBody errorBody =
        Except.ok { XMLName := "error", Code := "E17",
                    Description := "invalid postal code", BadData := "00000" } ∧
      unmarshalSuccessfulBody errorBody =
        Except.error "expected element type <Envelope> but have <error>" ∧
      (RequestPickup sampleInput "u" "pw" estesTestURL defaultTimeout
          (TransportResult.ok errorBody)).err =
        some (errUnmarshalMsg "expected element type <Envelope> but have <error>") ∧
      containsStr (errUnmarshalMsg "expected element type <Envelope> but have <error>")
          "E17" = false := by
  exact ⟨rfl, rfl, rfl, by decide⟩

/-- C2 (amended): for every reply body that parses as the error shape,
`RequestPickup` fails — but with the wrapped success-parse failure message
(the error shape's root `<error>` can never satisfy the success shape's
`<Envelope>` root, so line 212's rejected branch is not even reached); the
carrier's code, description and badData are at most logged, never carried in
the returned error, and the returned value is the zero value. -/
theorem estes_C2_error_fields_not_carried (p : PickupRequestInput) (user pass url : String)
    (t : Int) (body : ReplyBody) (e : ErrorPickupRequest)
    (h : unmarshalErrorBody body = Except.ok e) :
    (RequestPickup p user pass url t (TransportResult.ok body)).err =
        some (errUnmarshalMsg "expected element type <Envelope> but have <error>") ∧
      (RequestPickup p user pass url t (TransportResult.ok body)).responseData =
        zeroSuccess := by
  cases body with
  | notXml raw => exact absurd h (by simp [unmarshalErrorBody])
  | xmlDoc doc =>
    cases doc with
    | text s => exact absurd h (by simp [unmarshalErrorBody, unmarshalError])
    | elem n a cs =>
      have hn : localName n = "error" := by
        by_contra hne
        simp [unmarshalErrorBody, unmarshalError, hne] at h
      have hs : unmarshalSuccessfulBody (ReplyBody.xmlDoc (Xml.elem n a cs)) =
          Except.error ("expected element type <Envelope> but have <" ++ localName n ++ ">") := by
        have hne : ¬localName n = "Envelope" := by
          rw [hn]
          decide
        simp [unmarshalSuccessfulBody, unmarshalSuccessful, hne]
      rw [hn] at hs
      obtain ⟨h1, h2, _⟩ := requestPickup_parse_error p user pass url t _ _ hs
      exact ⟨h1, h2⟩

/-- C2 witness: the amended theorem applied to `errorBody`. -/
theorem estes_C2_witness :
    (RequestPickup sampleInput "u" "pw" estesTestURL defaultTimeout
        (TransportResult.ok errorBody)).err =
      some (errUnmarshalMsg "expected element type <Envelope> but have <error>") :=
  (estes_C2_error_fields_not_carried sampleInput "u" "pw" estesTestURL defaultTimeout
      errorBody
      { XMLName := "error", Code := "E17",
        Description := "invalid postal code", BadData := "00000" } rfl).1

/-- C4: a reply body parsing as the success shape with a non-empty request
number yields a nil error and exactly that parsed value; and this is the sole
success path — whenever `RequestPickup` returns a nil error, the transport
succeeded, the body parsed as the success shape to exactly the returned value,
and the returned request number is non-empty. -/
theorem estes_C4_success_classification (p : PickupRequestInput) (user pass url : String)
    (t : Int) (tr : TransportResult) :
    (∀ body rd, tr = TransportResult.ok body →
        unmarshalSuccessfulBody body = Except.ok rd →
        rd.Response.RequestNumber ≠ "" →
        (RequestPickup p user pass url t tr).err = none ∧
          (RequestPickup p user pass url t tr).responseData = rd) ∧
      ((RequestPickup p user pass url t tr).err = none →
        ∃ body, tr = TransportResult.ok body ∧
          unmarshalSuccessfulBody body =
            Except.ok (RequestPickup p user pass url t tr).responseData ∧
          (RequestPickup p user pass url t tr).responseData.Response.RequestNumber ≠ "") := by
  constructor
  · rintro body rd rfl h he
    exact requestPickup_success p user pass url t body rd h he
  · intro hnone
    cases tr with
    | postFail => exact absurd hnone (by simp [RequestPickup])
    | readFail => exact absurd hnone (by simp [RequestPickup])
    | ok body =>
      refine ⟨body, rfl, ?_⟩
      cases hu : unmarshalSuccessfulBody body with
      | error m =>
        rw [(requestPickup_parse_error p user pass url t body m hu).1] at hnone
        exact Option.noConfusion hnone
      | ok rd =>
        by_cases he : rd.Response.RequestNumber = ""
        · rw [(requestPickup_rejected p user pass url t body rd hu he).1] at hnone
          exact Option.noConfusion hnone
        · have hs := requestPickup_success p user pass url t body rd hu he
          rw [hs.2]
          exact ⟨rfl, he⟩

/-- C4 witness: the theorem applied to a concrete success reply with request
number `12345`. -/
theorem estes_C4_witness :
    (RequestPickup sampleInput "u" "pw" estesTestURL defaultTimeout
        (TransportResult.ok (successBody "12345"))).err = none ∧
      (RequestPickup sampleInput "u" "pw" estesTestURL defaultTimeout
          (TransportResult.ok (successBody "12345"))).responseData =
        { XMLName := "Envelope", Response := { RequestNumber := "12345" } } :=
  (estes_C4_success_classification sampleInput "u" "pw" estesTestURL defaultTimeout
      (TransportResult.ok (successBody "12345"))).1 (successBody "12345")
    { XMLName := "Envelope", Response := { RequestNumber := "12345" } }
    rfl rfl (by decide)

end Estes
